import Mathlib

/-!
Verification development for the face-recognition service
(`src/services/faceRecognitionService.js`, `src/services/faceValidationService.js`,
`src/server.js`).

Modelling conventions (shallow embedding):

* JavaScript numbers are modelled as rationals (`ℚ`); `Float32Array.from` on a
  numeric array is the identity on the underlying list of numbers (float
  rounding is outside the model).
* A Euclidean distance `d = sqrt s` is represented by its square `s : ℚ`
  (always nonnegative).  Every comparison the code performs on a distance is
  encoded exactly on the square: `sqrt s < t ↔ 0 < t ∧ s < t*t` and
  `sqrt s > t ↔ t < 0 ∨ t*t < s` (see `sqrtLtQ`, `sqrtGtQ`).  The `distanceSq`
  field of a result therefore determines the `distance` (its square root) and
  the `similarity` (`1 - distance`, computed by the code as
  `similarity: 1 - bestMatch.distance`); in particular `distanceSq = 0` is
  exactly `distance = 0` and `similarity = 1`.
* A thrown JavaScript exception is `Except.error ()`; normal return is
  `Except.ok`.  The external capabilities (image decoding, the face-detection
  model) are passed in as their outcome for the call, mirroring the spec's
  treatment of the detector as a black-box capability.
* `JSON.parse` / `JSON.stringify` of the JavaScript runtime are embedded as an
  executable JSON parser / printer over a `Json` inductive.
-/

/-! ### JSON values, parsing and printing (the `JSON.parse` / `JSON.stringify`
runtime capabilities used by the services) -/

inductive Json where
  | null : Json
  | bool (b : Bool) : Json
  | num (q : ℚ) : Json
  | str (s : String) : Json
  | arr (elems : List Json) : Json
  | obj (fields : List (String × Json)) : Json

/-- Double-quote character. -/
def qChar : Char := Char.ofNat 34

/-- Backslash character. -/
def bsChar : Char := Char.ofNat 92

/-- Opening curly brace character. -/
def lbChar : Char := Char.ofNat 123

/-- Closing curly brace character. -/
def rbChar : Char := Char.ofNat 125

def isJsonWs (c : Char) : Bool :=
  c = ' ' || c = Char.ofNat 9 || c = Char.ofNat 10 || c = Char.ofNat 13

def skipWs : List Char → List Char
  | [] => []
  | c :: cs => if isJsonWs c then skipWs cs else c :: cs

def takeDigits : List Char → List Char × List Char
  | [] => ([], [])
  | c :: cs =>
    if c.isDigit then
      let p := takeDigits cs
      (c :: p.1, p.2)
    else ([], c :: cs)

def digitsVal (ds : List Char) : Nat :=
  ds.foldl (fun acc c => acc * 10 + (c.toNat - 48)) 0

def parseNumber (cs0 : List Char) : Option (ℚ × List Char) :=
  let sign :=
    match cs0 with
    | c :: rest => if c = '-' then (true, rest) else (false, cs0)
    | [] => (false, ([] : List Char))
  match takeDigits sign.2 with
  | ([], _) => none
  | (ints, cs2) =>
    let intVal : ℚ := (digitsVal ints : ℚ)
    let afterFrac : Option (ℚ × List Char) :=
      match cs2 with
      | c :: rest =>
        if c = '.' then
          match takeDigits rest with
          | ([], _) => none
          | (ds, cs3) => some (intVal + (digitsVal ds : ℚ) / ((10 : ℚ) ^ ds.length), cs3)
        else some (intVal, cs2)
      | [] => some (intVal, [])
    match afterFrac with
    | none => none
    | some (v1, cs4) =>
      let afterExp : Option (ℚ × List Char) :=
        match cs4 with
        | c :: rest =>
          if c = 'e' ∨ c = 'E' then
            let esign :=
              match rest with
              | d :: r2 =>
                if d = '+' then ((1 : Int), r2)
                else if d = '-' then ((-1 : Int), r2)
                else ((1 : Int), rest)
              | [] => ((1 : Int), ([] : List Char))
            match takeDigits esign.2 with
            | ([], _) => none
            | (ds, cs6) => some (v1 * (10 : ℚ) ^ (esign.1 * (digitsVal ds : Int)), cs6)
          else some (v1, cs4)
        | [] => some (v1, [])
      match afterExp with
      | none => none
      | some (v2, cs7) => some (if sign.1 then -v2 else v2, cs7)

def hexVal (c : Char) : Option Nat :=
  if c.isDigit then some (c.toNat - 48)
  else if 'a' ≤ c ∧ c ≤ 'f' then some (c.toNat - 87)
  else if 'A' ≤ c ∧ c ≤ 'F' then some (c.toNat - 55)
  else none

/-- Parse the body of a JSON string after the opening quote; returns the
decoded characters and the input remaining after the closing quote. -/
def parseStringBody : Nat → List Char → Option (List Char × List Char)
  | 0, _ => none
  | _ + 1, [] => none
  | fuel + 1, c :: cs =>
    if c = qChar then some ([], cs)
    else if c = bsChar then
      match cs with
      | [] => none
      | e :: cs2 =>
        let esc : Option (Char × List Char) :=
          if e = qChar then some (qChar, cs2)
          else if e = bsChar then some (bsChar, cs2)
          else if e = '/' then some ('/', cs2)
          else if e = 'b' then some (Char.ofNat 8, cs2)
          else if e = 'f' then some (Char.ofNat 12, cs2)
          else if e = 'n' then some (Char.ofNat 10, cs2)
          else if e = 'r' then some (Char.ofNat 13, cs2)
          else if e = 't' then some (Char.ofNat 9, cs2)
          else if e = 'u' then
            match cs2 with
            | h1 :: h2 :: h3 :: h4 :: cs3 =>
              match hexVal h1, hexVal h2, hexVal h3, hexVal h4 with
              | some a, some b, some c2, some d =>
                some (Char.ofNat (((a * 16 + b) * 16 + c2) * 16 + d), cs3)
              | _, _, _, _ => none
            | _ => none
          else none
        match esc with
        | none => none
        | some (ch, rest) =>
          match parseStringBody fuel rest with
          | none => none
          | some (out, fin) => some (ch :: out, fin)
    else if c.toNat < 32 then none
    else
      match parseStringBody fuel cs with
      | none => none
      | some (out, fin) => some (c :: out, fin)

mutual

def parseValue : Nat → List Char → Option (Json × List Char)
  | 0, _ => none
  | fuel + 1, cs0 =>
    match skipWs cs0 with
    | [] => none
    | c :: cs =>
      if c = qChar then
        match parseStringBody (cs.length + 1) cs with
        | some (content, rest) => some (.str (String.mk content), rest)
        | none => none
      else if c = lbChar then
        match skipWs cs with
        | [] => none
        | d :: ds =>
          if d = rbChar then some (.obj [], ds)
          else
            match parseObjItems fuel (d :: ds) with
            | some (fields, rest) => some (.obj fields, rest)
            | none => none
      else if c = '[' then
        match skipWs cs with
        | [] => none
        | d :: ds =>
          if d = ']' then some (.arr [], ds)
          else
            match parseArrayItems fuel (d :: ds) with
            | some (elems, rest) => some (.arr elems, rest)
            | none => none
      else if c = 'n' then
        match cs with
        | 'u' :: 'l' :: 'l' :: rest => some (.null, rest)
        | _ => none
      else if c = 't' then
        match cs with
        | 'r' :: 'u' :: 'e' :: rest => some (.bool true, rest)
        | _ => none
      else if c = 'f' then
        match cs with
        | 'a' :: 'l' :: 's' :: 'e' :: rest => some (.bool false, rest)
        | _ => none
      else if c = '-' ∨ c.isDigit then
        match parseNumber (c :: cs) with
        | some (q, rest) => some (.num q, rest)
        | none => none
      else none

def parseArrayItems : Nat → List Char → Option (List Json × List Char)
  | 0, _ => none
  | fuel + 1, cs0 =>
    match parseValue fuel cs0 with
    | none => none
    | some (v, rest) =>
      match skipWs rest with
      | ',' :: rest2 =>
        match parseArrayItems fuel rest2 with
        | some (elems, rest3) => some (v :: elems, rest3)
        | none => none
      | ']' :: rest2 => some ([v], rest2)
      | _ => none

def parseObjItems : Nat → List Char → Option (List (String × Json) × List Char)
  | 0, _ => none
  | fuel + 1, cs0 =>
    match skipWs cs0 with
    | [] => none
    | c :: cs =>
      if c = qChar then
        match parseStringBody (cs.length + 1) cs with
        | none => none
        | some (key, rest) =>
          match skipWs rest with
          | ':' :: rest2 =>
            match parseValue fuel rest2 with
            | none => none
            | some (v, rest3) =>
              match skipWs rest3 with
              | ',' :: rest4 =>
                match parseObjItems fuel rest4 with
                | some (fields, rest5) => some ((String.mk key, v) :: fields, rest5)
                | none => none
              | d :: rest4 => if d = rbChar then some ([(String.mk key, v)], rest4) else none
              | [] => none
          | _ => none
      else none

end

/-- Embeds `JSON.parse`; `none` models a thrown `SyntaxError`. -/
def jsonParse (s : String) : Option Json :=
  match parseValue (s.toList.length + 1) s.toList with
  | some (v, rest) => if skipWs rest = [] then some v else none
  | none => none

def hexDigit (n : Nat) : Char :=
  if n < 10 then Char.ofNat (48 + n) else Char.ofNat (87 + n)

def escapeJsonChar (c : Char) : List Char :=
  if c = qChar then [bsChar, qChar]
  else if c = bsChar then [bsChar, bsChar]
  else if c = Char.ofNat 8 then [bsChar, 'b']
  else if c = Char.ofNat 9 then [bsChar, 't']
  else if c = Char.ofNat 10 then [bsChar, 'n']
  else if c = Char.ofNat 12 then [bsChar, 'f']
  else if c = Char.ofNat 13 then [bsChar, 'r']
  else if c.toNat < 32 then [bsChar, 'u', '0', '0', hexDigit (c.toNat / 16), hexDigit (c.toNat % 16)]
  else [c]

def escapeJsonString (s : String) : String :=
  String.mk (s.toList.map escapeJsonChar).flatten

/-- Embeds `JSON.stringify` of a two-field record, the label synthesized by the codec
(`faceRecognitionService.js` lines 57-60, 67-70, 174-177, 183-186, 265). -/
def jsonStringifyPair (nome codigoHub : String) : String :=
  "\x7b\"nome\":\"" ++ escapeJsonString nome ++ "\",\"codigoHub\":\"" ++
    escapeJsonString codigoHub ++ "\"\x7d"

/-! ### Label codec: normalization of heterogeneous stored-descriptor entries

Embeds the `storedDescriptors.map(...)` normalization of
`faceRecognitionService.js` (lines 44-80 in `findMatches` and the verbatim
duplicate at lines 164-196 in `findMatchesByDescriptor`).  A raw store entry is
either a record probed for its `label` / `descriptor` / `nome` / `codigoHub` /
`face` fields (absent fields are `none`), or a bare numeric array (on which all
those probes yield `undefined`).  JavaScript truthiness of a string field is
"present and non-empty"; an array (even empty) is always truthy. -/

inductive FaceField where
  | arrF (xs : List ℚ) : FaceField
  | strF (s : String) : FaceField
deriving DecidableEq

structure StoredRecord where
  label : Option String := none
  descriptor : Option (List ℚ) := none
  nome : Option String := none
  codigoHub : Option String := none
  face : Option FaceField := none
deriving DecidableEq

inductive RawEntry where
  | record (e : StoredRecord) : RawEntry
  | bareArr (xs : List ℚ) : RawEntry
deriving DecidableEq

/-- JavaScript truthiness of an optional string field. -/
def truthyStr : Option String → Bool
  | some s => !(s = "")
  | none => false

/-- JavaScript truthiness of the `face` field: arrays are always truthy,
strings are truthy when non-empty. -/
def truthyFace : Option FaceField → Bool
  | some (.arrF _) => true
  | some (.strF s) => !(s = "")
  | none => false

/-- Embeds `stored.nome || "unknown"` (and likewise for `codigoHub`). -/
def strOrUnknown : Option String → String
  | some s => if s = "" then "unknown" else s
  | none => "unknown"

/-- Condition of the first codec branch, `stored.label && stored.descriptor`. -/
def shape1Cond (e : StoredRecord) : Bool :=
  truthyStr e.label && e.descriptor.isSome

/-- Condition of the second codec branch,
`stored.nome && stored.codigoHub && stored.face`. -/
def shape2Cond (e : StoredRecord) : Bool :=
  truthyStr e.nome && truthyStr e.codigoHub && truthyFace e.face

def jsonNums : List Json → Except Unit (List ℚ)
  | [] => .ok []
  | .num q :: rest =>
    match jsonNums rest with
    | .ok l => .ok (q :: l)
    | .error u => .error u
  | _ :: _ => .error ()

/-- Embeds `Float32Array.from(JSON.parse(stored.face))` for a successfully parsed
JSON value: a numeric array yields its numbers.  (On non-array JSON values the
JavaScript call produces degenerate `Float32Array`s — `NaN` entries or an
empty array — which no claim exercises; the model treats them as outside its
scope via `.error`.) -/
def float32FromJson : Json → Except Unit (List ℚ)
  | .arr xs => jsonNums xs
  | _ => .error ()

/-- Normalization of one raw store entry into a `(label, vector)` pair
(`null` ≡ `none`); `Except.error` models a propagated `JSON.parse` exception.
Follows lines 44-80 / 164-196 of `faceRecognitionService.js` branch by
branch. -/
def normalizeEntry : RawEntry → Except Unit (Option (String × List ℚ))
  | .bareArr _ => .ok none
  | .record e =>
    if shape1Cond e then
      .ok (some (e.label.getD "", e.descriptor.getD []))
    else if shape2Cond e then
      match e.face with
      | some (.strF s) =>
        match jsonParse s with
        | none => .error ()
        | some j =>
          match float32FromJson j with
          | .error u => .error u
          | .ok d => .ok (some (jsonStringifyPair (e.nome.getD "") (e.codigoHub.getD ""), d))
      | some (.arrF xs) =>
        .ok (some (jsonStringifyPair (e.nome.getD "") (e.codigoHub.getD ""), xs))
      | none => .error ()
    else if e.descriptor.isSome then
      .ok (some (jsonStringifyPair (strOrUnknown e.nome) (strOrUnknown e.codigoHub),
                 e.descriptor.getD []))
    else .ok none

/-- The `.map(...).filter(Boolean)` chain over the store: entries normalize in
order (a thrown parse error aborts the whole chain, as in JavaScript `map`)
and `null` results are dropped. -/
def normalizeStore : List RawEntry → Except Unit (List (String × List ℚ))
  | [] => .ok []
  | e :: rest =>
    match normalizeEntry e with
    | .error u => .error u
    | .ok o =>
      match normalizeStore rest with
      | .error u => .error u
      | .ok tail =>
        .ok (match o with
             | some p => p :: tail
             | none => tail)

/-- Embeds `createLabeledDescriptor` (`faceRecognitionService.js` lines 263-268):
the enrollment-format record `{ label: JSON.stringify({nome, codigoHub}),
descriptor }`. -/
def createLabeledDescriptor (nome codigoHub : String) (descriptor : List ℚ) : StoredRecord :=
  { label := some (jsonStringifyPair nome codigoHub), descriptor := some descriptor }

/-! ### The face-api.js `FaceMatcher` dependency

The service builds `new FaceMatcher(labeledDescriptors)` and calls
`findBestMatch`.  This embeds the library's semantics (face-api.js
`src/globalApi/FaceMatcher.ts`): the constructor's default
`distanceThreshold` is `0.6`; `matchDescriptor` maps every labeled descriptor
to a `FaceMatch` with the mean Euclidean distance to its reference vectors and
reduces with `(best, curr) => best.distance < curr.distance ? best : curr`
(so on ties the *later* entry wins); `findBestMatch` returns the best match if
its distance is strictly below the internal threshold and otherwise a
`FaceMatch('unknown', distance)`.  The service always wraps exactly one vector
per `LabeledFaceDescriptors` (`new LabeledFaceDescriptors(label, [descriptor])`,
lines 78/194), so the mean distance over the singleton is the Euclidean
distance itself; the embedding therefore consumes `(label, vector)` pairs.
`euclideanDistance` throws when the two vectors have different lengths. -/

/-- Sum of squared coordinate differences (the square of the Euclidean
distance), defined on equal-length vectors. -/
def sumSqDiff : List ℚ → List ℚ → ℚ
  | a :: as, b :: bs => (a - b) * (a - b) + sumSqDiff as bs
  | _, _ => 0

/-- face-api.js `euclideanDistance`, squared-distance representation; throws
on mismatched lengths. -/
def euclideanDistanceSq (a b : List ℚ) : Except Unit ℚ :=
  if a.length = b.length then .ok (sumSqDiff a b) else .error ()

/-- Encodes `sqrt s < t` for `s ≥ 0`. -/
def sqrtLtQ (s t : ℚ) : Bool := 0 < t && s < t * t

/-- Encodes `sqrt s > t` for `s ≥ 0`. -/
def sqrtGtQ (s t : ℚ) : Bool := t < 0 || t * t < s

structure FaceMatch where
  label : String
  distanceSq : ℚ
deriving DecidableEq

/-- The `reduce((best, curr) => best.distance < curr.distance ? best : curr)`
fold: strictly smaller keeps the accumulator, otherwise the current element
replaces it. -/
def reduceBest : FaceMatch → List FaceMatch → FaceMatch
  | best, [] => best
  | best, c :: rest => reduceBest (if best.distanceSq < c.distanceSq then best else c) rest

/-- The `labeledDescriptors.map(... euclideanDistance ...)` step of
`FaceMatcher.matchDescriptor`. -/
def computeFaceMatches (q : List ℚ) : List (String × List ℚ) → Except Unit (List FaceMatch)
  | [] => .ok []
  | (l, d) :: rest =>
    match euclideanDistanceSq d q with
    | .error u => .error u
    | .ok s =>
      match computeFaceMatches q rest with
      | .error u => .error u
      | .ok ms => .ok (⟨l, s⟩ :: ms)

/-- Embeds `FaceMatcher.matchDescriptor`; JavaScript `reduce` without an initial
value throws on an empty array (the service guards against an empty store
before ever calling this). -/
def matchDescriptor (q : List ℚ) (lds : List (String × List ℚ)) : Except Unit FaceMatch :=
  match computeFaceMatches q lds with
  | .error u => .error u
  | .ok [] => .error ()
  | .ok (m :: ms) => .ok (reduceBest m ms)

/-- Embeds `FaceMatcher.findBestMatch` with the constructor's default
`distanceThreshold = 0.6`: a best match at distance `≥ 0.6` is relabeled to
the `"unknown"` sentinel, keeping its distance. -/
def findBestMatch (q : List ℚ) (lds : List (String × List ℚ)) : Except Unit FaceMatch :=
  match matchDescriptor q lds with
  | .error u => .error u
  | .ok best => .ok (if sqrtLtQ best.distanceSq (3/5) then best else ⟨"unknown", best.distanceSq⟩)

/-! ### The best-match service functions -/

/-- The decoded label payload: `JSON.parse(bestMatch.label)` when parseable,
else the wrapper object `{ label: bestMatch.label }` around the raw string
(lines 116-122 / 231-237). -/
inductive Participant where
  | parsed (v : Json) : Participant
  | asLabel (label : String) : Participant

/-- A single element of the result array.  The JavaScript objects carry in
addition `label: "unknown"` on both not-matched shapes and
`similarity: 1 - bestMatch.distance` on the matched shape; both are functions
of the fields kept here (see the header on the squared-distance encoding). -/
inductive MatchResult where
  | notMatched (reason : String) (distanceSq : ℚ) : MatchResult
  | matched (distanceSq : ℚ) (participant : Participant) (label : String) : MatchResult

def decodeParticipant (l : String) : Participant :=
  match jsonParse l with
  | some v => .parsed v
  | none => .asLabel l

/-- The common body of `findMatches` (lines 44-132) and
`findMatchesByDescriptor` (lines 164-247) after the query descriptor is in
hand: normalize the store, return `[]` when nothing survives, run the
`FaceMatcher`, then apply the threshold / sentinel / parse decision chain. -/
def matchAgainstStore (queryDesc : List ℚ) (store : List RawEntry) (distanceThreshold : ℚ) :
    Except Unit (List MatchResult) :=
  match normalizeStore store with
  | .error u => .error u
  | .ok lds =>
    if lds.isEmpty then .ok []
    else
      match findBestMatch queryDesc lds with
      | .error u => .error u
      | .ok bestMatch =>
        if sqrtGtQ bestMatch.distanceSq distanceThreshold then
          .ok [.notMatched "Face not recognized with sufficient confidence" bestMatch.distanceSq]
        else if bestMatch.label = "unknown" then
          .ok [.notMatched "Face not recognized" bestMatch.distanceSq]
        else
          .ok [.matched bestMatch.distanceSq (decodeParticipant bestMatch.label) bestMatch.label]

/-- The query argument of `findMatchesByDescriptor`: a JSON string or a
numeric array (`Array` and `Float32Array` receive identical treatment). -/
inductive QueryInput where
  | str (s : String) : QueryInput
  | arr (xs : List ℚ) : QueryInput

/-- Lines 153-161: a string query goes through `JSON.parse` (a parse failure
throws) and `Float32Array.from`; arrays pass through. -/
def parseQueryInput : QueryInput → Except Unit (List ℚ)
  | .str s =>
    match jsonParse s with
    | none => .error ()
    | some j => float32FromJson j
  | .arr xs => .ok xs

/-- Embeds `findMatchesByDescriptor` (lines 147-252).  The `catch` clause logs and
re-throws, so a thrown exception surfaces as `Except.error`. -/
def findMatchesByDescriptor (queryDescriptor : QueryInput) (store : List RawEntry)
    (distanceThreshold : ℚ) : Except Unit (List MatchResult) :=
  match parseQueryInput queryDescriptor with
  | .error u => .error u
  | .ok qd => matchAgainstStore qd store distanceThreshold

/-- Embeds `findMatches` (lines 23-137), with the image decoding + detection front
end abstracted as its outcome: `error` a thrown decode/detector exception,
`ok none` no detected face (early `return []`), `ok (some qd)` a detection
with descriptor `qd`.  Its `catch` clause also logs and re-throws. -/
def findMatches (detection : Except Unit (Option (List ℚ))) (store : List RawEntry)
    (distanceThreshold : ℚ) : Except Unit (List MatchResult) :=
  match detection with
  | .error u => .error u
  | .ok none => .ok []
  | .ok (some qd) => matchAgainstStore qd store distanceThreshold

/-! ### The quality gate (`faceValidationService.js`)

`validateAndExtractDescriptor(imageBuffer)` is embedded with its two external
capabilities passed in as their outcome for the call: image decoding +
canvas rasterization (`loadImage` / `createCanvas` / `drawImage` /
`getImageData`) as an `Except Unit RawImage`, and
`detectSingleFace(...).withFaceLandmarks().withFaceDescriptor()` as an
`Except Unit (Option Detection)`.  The canvas has the image's own dimensions
(`createCanvas(img.width, img.height)`), so all checks read the image's width
and height.  The `videoWidth`/`videoHeight` parameters of the JavaScript
function are never used by its body and are omitted.  Pixels carry the RGB
components read by `checkBrightness` (`data[i]`, `data[i+1]`, `data[i+2]`;
the alpha byte is skipped). -/

structure Pixel where
  r : ℚ
  g : ℚ
  b : ℚ
deriving DecidableEq

structure RawImage where
  width : ℚ
  height : ℚ
  pixels : List Pixel
deriving DecidableEq

structure FaceBox where
  x : ℚ
  y : ℚ
  width : ℚ
  height : ℚ
deriving DecidableEq

structure Detection where
  score : ℚ
  box : FaceBox
  descriptor : List ℚ
deriving DecidableEq

structure ValidationResult where
  isValid : Bool
  errors : List String
  descriptor : Option (List ℚ)
  detectionScore : Option ℚ
  faceBox : Option FaceBox
deriving DecidableEq

/-- Luminance sum `0.299*r + 0.587*g + 0.114*b` over all pixels. -/
def lumSum : List Pixel → ℚ
  | [] => 0
  | p :: ps => (299/1000) * p.r + (587/1000) * p.g + (114/1000) * p.b + lumSum ps

/-- Embeds `checkBrightness`: mean perceived luminance, `sum / (data.length / 4)`. -/
def brightnessOf (img : RawImage) : ℚ :=
  lumSum img.pixels / (img.pixels.length : ℚ)

/-- The error-accumulation block of `validateAndExtractDescriptor`
(lines 100-138): the "no face" reason, or the four independent quality
checks in source order, each contributing at most one reason. -/
def detectionErrors (img : RawImage) (det : Option Detection) : List String :=
  match det with
  | none => ["Nenhum rosto detectado na foto"]
  | some d =>
    (if d.score < 9/10 then ["Qualidade da detecção baixa - tire outra foto"] else []) ++
    (let areaFrac := d.box.width * d.box.height / (img.width * img.height)
     if areaFrac < 1/10 then ["Rosto muito distante - aproxime-se da câmera"]
     else if 3/5 < areaFrac then ["Rosto muito próximo - afaste-se da câmera"]
     else []) ++
    (if img.width * (1/4) < |d.box.x + d.box.width / 2 - img.width / 2| then
       ["Rosto não centralizado - posicione-se no centro"]
     else []) ++
    (if brightnessOf img < 60 then ["Foto muito escura - melhore a iluminação"]
     else if 200 < brightnessOf img then ["Foto muito clara - reduza a iluminação"]
     else [])

/-- Embeds `validateAndExtractDescriptor` (lines 75-160).  The models-not-loaded
guard throws before the `try` block and so propagates; decode/detector
exceptions inside the `try` are caught and mapped to the single generic
reason (both throw points precede every `errors.push`).  When a face was
detected, descriptor, score and box are returned regardless of validity. -/
def validateAndExtractDescriptor (modelsLoaded : Bool) (decode : Except Unit RawImage)
    (detect : Except Unit (Option Detection)) : Except Unit ValidationResult :=
  if !modelsLoaded then .error ()
  else
    match decode with
    | .error _ => .ok ⟨false, ["Erro ao processar a imagem"], none, none, none⟩
    | .ok img =>
      match detect with
      | .error _ => .ok ⟨false, ["Erro ao processar a imagem"], none, none, none⟩
      | .ok det =>
        let errs := detectionErrors img det
        .ok ⟨errs.isEmpty, errs,
             Option.map (fun d => d.descriptor) det,
             Option.map (fun d => d.score) det,
             Option.map (fun d => d.box) det⟩

/-! ### The ranked matcher variant

The spec (§2 "duplicated/alternate implementations", §4.3 "Ranked variant",
§9 `ManualDistanceMatcher`) and the repository README (`/api/recognize`
response entries `{index, similarity, distance, metadata}`, "Default
similarity threshold: 0.6") describe a hand-rolled ranked matcher computing
both Euclidean distance and cosine similarity.  Its implementation is not
among the files under `src/`; the definitions below are therefore modelled
from the spec's words.

A cosine similarity `dot(a,b) / (‖a‖·‖b‖)` is represented by the pair
`(simNum, simDenSq)` standing for `simNum / sqrt simDenSq` with
`simDenSq = ‖a‖²·‖b‖² > 0`, or by `(0, 1)` in the zero-norm guard case; all
comparisons on similarities are encoded exactly on this representation
(`cosGeQ`, `cosCmp`), and `simValue` maps it back to the real value. -/

def sumSq : List ℚ → ℚ
  | [] => 0
  | a :: as => a * a + sumSq as

def dotQ : List ℚ → List ℚ → ℚ
  | a :: as, b :: bs => a * b + dotQ as bs
  | _, _ => 0

/-- Modelled from the spec: cosine similarity `dot(a,b) / (‖a‖·‖b‖)`,
"defined as exactly 0 when either norm is 0" (§4.3), in the
`(numerator, squared denominator)` representation. -/
def cosSimRep (a b : List ℚ) : ℚ × ℚ :=
  if sumSq a = 0 ∨ sumSq b = 0 then (0, 1) else (dotQ a b, sumSq a * sumSq b)

/-- Three-way comparison of rationals. -/
def cosCmpQ (a b : ℚ) : Ordering :=
  if a < b then .lt else if b < a then .gt else .eq

/-- Ordering of two represented cosine similarities `n1/sqrt m1` versus
`n2/sqrt m2` (exact, by sign analysis and cross-multiplied squares). -/
def cosCmp (n1 m1 n2 m2 : ℚ) : Ordering :=
  if 0 ≤ n1 then
    if 0 ≤ n2 then cosCmpQ (n1 * n1 * m2) (n2 * n2 * m1)
    else .gt
  else
    if 0 ≤ n2 then .lt
    else cosCmpQ (n2 * n2 * m1) (n1 * n1 * m2)

/-- Encodes `n / sqrt m ≥ t` for `m > 0`. -/
def cosGeQ (n m t : ℚ) : Bool :=
  if 0 ≤ n then t ≤ 0 || t * t * m ≤ n * n
  else t ≤ 0 && n * n ≤ t * t * m

/-- One ranked result: original store index, squared Euclidean distance,
represented cosine similarity, and the entry's label metadata (`none` for an
unlabeled bare vector). -/
structure RankedMatch where
  idx : Nat
  distanceSq : ℚ
  simNum : ℚ
  simDenSq : ℚ
  metadata : Option String
deriving DecidableEq

/-- Modelled from the spec: the ranked variant's store normalization to
`(vector, metadata)` (§4.3 with the §4.2 codec shapes): a bare numeric array
is "accepted as an unlabeled vector" (§4.2 case 4), the record shapes reuse
the codec's probes, and entries whose JSON descriptor string fails parsing
"are skipped" (§4.3), not thrown. -/
def rankedNormalize : RawEntry → Option (List ℚ × Option String)
  | .bareArr xs => some (xs, none)
  | .record e =>
    if shape1Cond e then some (e.descriptor.getD [], some (e.label.getD ""))
    else if shape2Cond e then
      match e.face with
      | some (.strF s) =>
        match jsonParse s with
        | none => none
        | some j =>
          match float32FromJson j with
          | .error _ => none
          | .ok d => some (d, some (jsonStringifyPair (e.nome.getD "") (e.codigoHub.getD "")))
      | some (.arrF xs) =>
        some (xs, some (jsonStringifyPair (e.nome.getD "") (e.codigoHub.getD "")))
      | none => none
    else if e.descriptor.isSome then
      some (e.descriptor.getD [],
            some (jsonStringifyPair (strOrUnknown e.nome) (strOrUnknown e.codigoHub)))
    else none

/-- Both metrics for one normalized entry at its original store index. -/
def rankedCandidate (q : List ℚ) (i : Nat) (v : List ℚ) (md : Option String) : RankedMatch :=
  ⟨i, sumSqDiff q v, (cosSimRep q v).1, (cosSimRep q v).2, md⟩

/-- Normalize every store entry (keeping original indices from `i` up) and
compute both metrics; skipped entries leave no result. -/
def rankedCandidatesFrom (q : List ℚ) (i : Nat) : List RawEntry → List RankedMatch
  | [] => []
  | e :: rest =>
    match rankedNormalize e with
    | some (v, md) => rankedCandidate q i v md :: rankedCandidatesFrom q (i + 1) rest
    | none => rankedCandidatesFrom q (i + 1) rest

def rankedCandidates (q : List ℚ) (store : List RawEntry) : List RankedMatch :=
  rankedCandidatesFrom q 0 store

/-- Spec order: "sort the surviving set descending by similarity (ties broken by original
store order)": `a` precedes `b` when `a`'s similarity is strictly greater, or
the similarities are equal and `a`'s store index is not larger. -/
def rankedLe (a b : RankedMatch) : Bool :=
  match cosCmp a.simNum a.simDenSq b.simNum b.simDenSq with
  | .gt => true
  | .eq => decide (a.idx ≤ b.idx)
  | .lt => false

def insertLe (le : RankedMatch → RankedMatch → Bool) (a : RankedMatch) :
    List RankedMatch → List RankedMatch
  | [] => [a]
  | b :: l => if le a b then a :: b :: l else b :: insertLe le a l

def sortLe (le : RankedMatch → RankedMatch → Bool) : List RankedMatch → List RankedMatch
  | [] => []
  | a :: l => insertLe le a (sortLe le l)

/-- Modelled from the spec: the ranked matcher variant (§4.3 "Ranked
variant"), whose hand-rolled implementation is not under `src/`: normalize
every store entry, compute both metrics, keep entries whose cosine similarity
is `≥ threshold`, and sort the survivors descending by similarity with ties
in original store order.  Total — an empty or fully-skipped store and an
empty surviving set yield `[]`, never an error. -/
def rankedFindMatches (q : List ℚ) (store : List RawEntry) (threshold : ℚ) : List RankedMatch :=
  sortLe rankedLe
    ((rankedCandidates q store).filter (fun r => cosGeQ r.simNum r.simDenSq threshold))

/-- The real cosine-similarity value represented by `(n, m)`. -/
noncomputable def cosValR (n m : ℚ) : ℝ := (n : ℝ) / Real.sqrt (m : ℝ)

/-- The real similarity of a ranked result. -/
noncomputable def simValue (r : RankedMatch) : ℝ := cosValR r.simNum r.simDenSq

/-! ### Auxiliary definitions used by the theorems -/

/-- The per-label `FaceMatch`es produced by `FaceMatcher.matchDescriptor`
when every vector has the query's length (so no distance computation
throws). -/
def pureMatches (q : List ℚ) (lds : List (String × List ℚ)) : List FaceMatch :=
  lds.map (fun p => ⟨p.1, sumSqDiff p.2 q⟩)

/-- The winner of the nearest-neighbor search over a (nonempty) normalized
store: the entry of globally minimum distance, the last such entry on ties
(the `reduce` tie-break). -/
def bestOfPure (q : List ℚ) (lds : List (String × List ℚ)) : FaceMatch :=
  match pureMatches q lds with
  | [] => ⟨"unknown", 0⟩
  | m :: ms => reduceBest m ms

/-! ### Helper lemmas about the best-match pipeline -/

theorem sumSqDiff_nonneg (a b : List ℚ) : 0 ≤ sumSqDiff a b := by
  induction a generalizing b with
  | nil => cases b <;> simp [sumSqDiff]
  | cons x xs ih =>
    cases b with
    | nil => simp [sumSqDiff]
    | cons y ys =>
      have h1 : 0 ≤ (x - y) * (x - y) := mul_self_nonneg _
      have h2 := ih ys
      simp only [sumSqDiff]
      linarith

theorem sumSqDiff_self (a : List ℚ) : sumSqDiff a a = 0 := by
  induction a with
  | nil => simp [sumSqDiff]
  | cons x xs ih => simp [sumSqDiff, ih]

theorem reduceBest_mem (m : FaceMatch) (ms : List FaceMatch) :
    reduceBest m ms ∈ m :: ms := by
  induction ms generalizing m with
  | nil => simp [reduceBest]
  | cons c rest ih =>
    simp only [reduceBest]
    rcases List.mem_cons.1 (ih (if m.distanceSq < c.distanceSq then m else c)) with h | h
    · rw [h]
      by_cases hlt : m.distanceSq < c.distanceSq
      · simp [hlt]
      · simp [hlt]
    · exact List.mem_cons_of_mem _ (List.mem_cons_of_mem _ h)

theorem reduceBest_min (m : FaceMatch) (ms : List FaceMatch) :
    ∀ x ∈ m :: ms, (reduceBest m ms).distanceSq ≤ x.distanceSq := by
  induction ms generalizing m with
  | nil =>
    intro x hx
    simp at hx
    simp [reduceBest, hx]
  | cons c rest ih =>
    intro x hx
    have step : (reduceBest (if m.distanceSq < c.distanceSq then m else c) rest).distanceSq ≤
        (if m.distanceSq < c.distanceSq then m else c).distanceSq :=
      ih _ _ (List.mem_cons_self _ _)
    rcases List.mem_cons.1 hx with rfl | hx2
    · by_cases hlt : x.distanceSq < c.distanceSq
      · simpa [reduceBest, hlt] using step
      · have := ih (if x.distanceSq < c.distanceSq then x else c) c (by simp [hlt])
        simp only [reduceBest]
        simp [hlt] at this ⊢
        linarith [not_lt.1 hlt]
    · rcases List.mem_cons.1 hx2 with rfl | hx3
      · by_cases hlt : m.distanceSq < x.distanceSq
        · simp only [reduceBest]
          have h2 : (reduceBest (if m.distanceSq < x.distanceSq then m else x) rest).distanceSq ≤
              (if m.distanceSq < x.distanceSq then m else x).distanceSq :=
            ih _ _ (List.mem_cons_self _ _)
          simp [hlt] at h2 ⊢
          linarith
        · simpa [reduceBest, hlt] using step
      · exact ih _ x (List.mem_cons_of_mem _ hx3)

theorem computeFaceMatches_ok (q : List ℚ) (lds : List (String × List ℚ))
    (hlen : ∀ p ∈ lds, (p.2 : List ℚ).length = q.length) :
    computeFaceMatches q lds = .ok (pureMatches q lds) := by
  induction lds with
  | nil => simp [computeFaceMatches, pureMatches]
  | cons p rest ih =>
    obtain ⟨l, d⟩ := p
    have hd : d.length = q.length := hlen (l, d) (List.mem_cons_self _ _)
    have hrest := ih (fun x hx => hlen x (List.mem_cons_of_mem _ hx))
    simp [computeFaceMatches, euclideanDistanceSq, hd, hrest, pureMatches]

theorem matchDescriptor_ok (q : List ℚ) (lds : List (String × List ℚ))
    (hne : lds ≠ []) (hlen : ∀ p ∈ lds, (p.2 : List ℚ).length = q.length) :
    matchDescriptor q lds = .ok (bestOfPure q lds) := by
  cases lds with
  | nil => exact absurd rfl hne
  | cons p rest =>
    rw [matchDescriptor, computeFaceMatches_ok q _ hlen]
    simp [pureMatches, bestOfPure]

theorem bestOfPure_exists (q : List ℚ) (lds : List (String × List ℚ)) (hne : lds ≠ []) :
    ∃ p ∈ lds, bestOfPure q lds = ⟨p.1, sumSqDiff p.2 q⟩ := by
  cases lds with
  | nil => exact absurd rfl hne
  | cons a l =>
    have hmem : bestOfPure q (a :: l) ∈ pureMatches q (a :: l) := by
      simp only [bestOfPure, pureMatches, List.map_cons]
      exact reduceBest_mem _ _
    rw [pureMatches] at hmem
    rcases List.mem_map.1 hmem with ⟨p, hp, he⟩
    exact ⟨p, hp, he.symm⟩

theorem bestOfPure_min (q : List ℚ) (lds : List (String × List ℚ)) :
    ∀ p ∈ lds, (bestOfPure q lds).distanceSq ≤ sumSqDiff p.2 q := by
  intro p hp
  cases lds with
  | nil => simp at hp
  | cons a l =>
    have hm : (⟨p.1, sumSqDiff p.2 q⟩ : FaceMatch) ∈ pureMatches q (a :: l) := by
      rw [pureMatches]
      exact List.mem_map.2 ⟨p, hp, rfl⟩
    simp only [pureMatches, List.map_cons] at hm
    simpa [bestOfPure, pureMatches] using reduceBest_min _ _ _ hm

/-- Characterization of the shared decision chain on a successfully
normalized, nonempty, length-uniform store. -/
theorem matchAgainstStore_spec (q : List ℚ) (store : List RawEntry)
    (lds : List (String × List ℚ)) (t : ℚ)
    (hn : normalizeStore store = .ok lds) (hne : lds ≠ [])
    (hlen : ∀ p ∈ lds, (p.2 : List ℚ).length = q.length) :
    matchAgainstStore q store t =
      .ok [if sqrtGtQ (bestOfPure q lds).distanceSq t = true then
             .notMatched "Face not recognized with sufficient confidence"
               (bestOfPure q lds).distanceSq
           else if (bestOfPure q lds).label = "unknown" ∨
               sqrtLtQ (bestOfPure q lds).distanceSq (3/5) = false then
             .notMatched "Face not recognized" (bestOfPure q lds).distanceSq
           else
             .matched (bestOfPure q lds).distanceSq
               (decodeParticipant (bestOfPure q lds).label) (bestOfPure q lds).label] := by
  have hie : lds.isEmpty = false := by
    cases lds with
    | nil => exact absurd rfl hne
    | cons a l => rfl
  rw [matchAgainstStore, hn]
  simp only [hie, Bool.false_eq_true, if_false]
  rw [findBestMatch.eq_def, matchDescriptor_ok q lds hne hlen]
  set B := bestOfPure q lds with hB
  by_cases hsl : sqrtLtQ B.distanceSq (3/5) = true
  · simp only [hsl, if_true]
    by_cases hgt : sqrtGtQ B.distanceSq t = true
    · simp [hgt]
    · simp only [Bool.not_eq_true] at hgt
      by_cases hul : B.label = "unknown"
      · simp [hgt, hul, hsl]
      · simp [hgt, hul, hsl]
  · simp only [Bool.not_eq_true] at hsl
    simp only [hsl, Bool.false_eq_true, if_false]
    by_cases hgt : sqrtGtQ B.distanceSq t = true
    · simp [hgt]
    · simp only [Bool.not_eq_true] at hgt
      simp [hgt, hsl]

theorem normalizeStore_all_none (store : List RawEntry)
    (h : ∀ e ∈ store, normalizeEntry e = .ok none) :
    normalizeStore store = .ok [] := by
  induction store with
  | nil => rfl
  | cons e rest ih =>
    rw [normalizeStore, h e (List.mem_cons_self _ _),
      ih (fun x hx => h x (List.mem_cons_of_mem _ hx))]

theorem jsonStringifyPair_ne_empty (n c : String) : jsonStringifyPair n c ≠ "" := by
  intro h
  have hl := congrArg String.length h
  rw [jsonStringifyPair] at hl
  simp only [String.length_append] at hl
  have h9 : String.length "\x7b\"nome\":\"" = 9 := by decide
  rw [h9] at hl
  simp at hl

/-- Helper: a `matched` result produced by the best-match pipeline never
carries the `"unknown"` label (the decision chain guards the matched branch
with `bestMatch.label !== "unknown"`). -/
theorem matched_label_ne_unknown (qi : QueryInput) (store : List RawEntry) (t : ℚ)
    (res : List MatchResult) (hres : findMatchesByDescriptor qi store t = .ok res) :
    ∀ ds pt l, MatchResult.matched ds pt l ∈ res → l ≠ "unknown" := by
  intro ds pt l hmem heq
  subst heq
  rw [findMatchesByDescriptor] at hres
  cases hpq : parseQueryInput qi with
  | error u => simp only [hpq] at hres; cases hres
  | ok qd =>
    simp only [hpq] at hres
    rw [matchAgainstStore] at hres
    cases hns : normalizeStore store with
    | error u => simp only [hns] at hres; cases hres
    | ok lds =>
      simp only [hns] at hres
      by_cases hie : lds.isEmpty = true
      · simp only [hie, if_true] at hres
        cases hres
        simp at hmem
      · simp only [hie, Bool.false_eq_true, if_false] at hres
        cases hfb : findBestMatch qd lds with
        | error u => simp only [hfb] at hres; cases hres
        | ok bm =>
          simp only [hfb] at hres
          by_cases hgt : sqrtGtQ bm.distanceSq t = true
          · simp only [hgt, if_true] at hres
            cases hres
            simp at hmem
          · simp only [hgt, Bool.false_eq_true, if_false] at hres
            by_cases hul : bm.label = "unknown"
            · simp only [hul, if_true] at hres
              cases hres
              simp at hmem
            · simp only [hul, if_false] at hres
              cases hres
              simp at hmem
              exact hul hmem.2.2.symm

/-- Claim C1 (counterexample): with threshold `0.7`, a store whose only
entry is labeled `"A"` at distance `0.625` from the query (distance² =
`25/64`, below the threshold, label not the sentinel) is reported
`NotMatched "Face not recognized"` — the library matcher's internal `0.6`
default relabels any best match at distance `≥ 0.6` to `"unknown"` before
the service's threshold logic runs, so no `Matched` result is produced where
the claim requires one. -/
theorem c1_counterexample :
    findMatchesByDescriptor (.arr [0])
        [RawEntry.record { label := some "A", descriptor := some [5/8] }] (7/10) =
      .ok [.notMatched "Face not recognized" (25/64)] ∧
    sqrtGtQ (25/64) (7/10) = false ∧
    normalizeStore [RawEntry.record { label := some "A", descriptor := some [5/8] }] =
      .ok [("A", [5/8])] ∧
    ∀ ds pt l,
      findMatchesByDescriptor (.arr [0])
          [RawEntry.record { label := some "A", descriptor := some [5/8] }] (7/10) ≠
        .ok [.matched ds pt l] := by
  have h1 : findMatchesByDescriptor (.arr [0])
      [RawEntry.record { label := some "A", descriptor := some [5/8] }] (7/10) =
      .ok [.notMatched "Face not recognized" (25/64)] := by
    norm_num [findMatchesByDescriptor, parseQueryInput, matchAgainstStore, normalizeStore,
      normalizeEntry, shape1Cond, shape2Cond, truthyStr, truthyFace, findBestMatch,
      matchDescriptor, computeFaceMatches, euclideanDistanceSq, sumSqDiff, reduceBest,
      sqrtLtQ, sqrtGtQ, show (("A" : String) = "") = False from by decide,
      show (("A" : String) = "unknown") = False from by decide]
  refine ⟨h1, by norm_num [sqrtGtQ], by rfl, ?_⟩
  intro ds pt l heq
  rw [h1] at heq
  simp at heq

/-- Claim C1 (amended): for every query descriptor, store and threshold `t`
(on a store that normalizes without a parse error to a nonempty list of
length-matching vectors), the best-match matcher returns a single result:
the winner is the entry of globally minimum Euclidean distance `d`; if `d`
exceeds `t`, `NotMatched` with the insufficient-confidence reason carrying
`d`; otherwise, if the winning label equals the sentinel `"unknown"` **or
`d ≥ 0.6`** (the face-api.js `FaceMatcher` default threshold, which relabels
the winner to `"unknown"`), `NotMatched` carrying `d`; otherwise `Matched`
with distance `d`, similarity `1 − d`, and the decoded label payload
(JSON-parsed when parseable, else the opaque label string). -/
theorem c1_best_match_decision (q : List ℚ) (store : List RawEntry)
    (lds : List (String × List ℚ)) (t : ℚ)
    (hn : normalizeStore store = .ok lds) (hne : lds ≠ [])
    (hlen : ∀ p ∈ lds, (p.2 : List ℚ).length = q.length) :
    (∃ p ∈ lds, (bestOfPure q lds).label = p.1 ∧
      (bestOfPure q lds).distanceSq = sumSqDiff p.2 q) ∧
    (∀ p ∈ lds, (bestOfPure q lds).distanceSq ≤ sumSqDiff p.2 q) ∧
    findMatchesByDescriptor (.arr q) store t =
      .ok [if sqrtGtQ (bestOfPure q lds).distanceSq t = true then
             .notMatched "Face not recognized with sufficient confidence"
               (bestOfPure q lds).distanceSq
           else if (bestOfPure q lds).label = "unknown" ∨
               sqrtLtQ (bestOfPure q lds).distanceSq (3/5) = false then
             .notMatched "Face not recognized" (bestOfPure q lds).distanceSq
           else
             .matched (bestOfPure q lds).distanceSq
               (decodeParticipant (bestOfPure q lds).label) (bestOfPure q lds).label] := by
  refine ⟨?_, bestOfPure_min q lds, ?_⟩
  · rcases bestOfPure_exists q lds hne with ⟨p, hp, he⟩
    exact ⟨p, hp, by rw [he], by rw [he]⟩
  · exact matchAgainstStore_spec q store lds t hn hne hlen

/-- Witness for C1 (amended) at a concrete matching input. -/
theorem c1_witness :
    findMatchesByDescriptor (.arr [0])
        [RawEntry.record { label := some "A", descriptor := some [1/2] }] (3/5) =
      .ok [.matched (1/4) (decodeParticipant "A") "A"] := by
  have h := (c1_best_match_decision [0]
      [RawEntry.record { label := some "A", descriptor := some [1/2] }]
      [("A", [1/2])] (3/5) rfl (by simp)
      (by rintro p hp; simp only [List.mem_singleton] at hp; subst hp; rfl)).2.2
  rw [h]
  norm_num [bestOfPure, pureMatches, reduceBest, sumSqDiff, sqrtGtQ, sqrtLtQ,
    show (("A" : String) = "unknown") = False from by decide]

/-- Claim C2: for every store and threshold, if the entry winning the
nearest-neighbor search has label exactly `"unknown"`, the matcher reports
`NotMatched` — even when the winning distance is below the threshold — and
the sentinel is never returned as a `Matched` identity. -/
theorem c2_unknown_sentinel :
    (∀ (q : List ℚ) (store : List RawEntry) (lds : List (String × List ℚ)) (t : ℚ),
        normalizeStore store = .ok lds → lds ≠ [] →
        (∀ p ∈ lds, (p.2 : List ℚ).length = q.length) →
        (bestOfPure q lds).label = "unknown" →
        findMatchesByDescriptor (.arr q) store t =
          .ok [.notMatched
            (if sqrtGtQ (bestOfPure q lds).distanceSq t = true then
              "Face not recognized with sufficient confidence"
             else "Face not recognized")
            (bestOfPure q lds).distanceSq]) ∧
    (∀ (qi : QueryInput) (store : List RawEntry) (t : ℚ) (res : List MatchResult),
        findMatchesByDescriptor qi store t = .ok res →
        ∀ ds pt l, MatchResult.matched ds pt l ∈ res → l ≠ "unknown") := by
  constructor
  · intro q store lds t hn hne hlen hul
    have h := matchAgainstStore_spec q store lds t hn hne hlen
    have heq : findMatchesByDescriptor (.arr q) store t = matchAgainstStore q store t := rfl
    rw [heq, h]
    by_cases hgt : sqrtGtQ (bestOfPure q lds).distanceSq t = true
    · simp [hgt]
    · simp [hgt, hul]
  · exact matched_label_ne_unknown

/-- Witness for C2: an `"unknown"`-labeled entry at distance `0` (below the
threshold `1`) is reported `NotMatched`. -/
theorem c2_witness :
    findMatchesByDescriptor (.arr [0])
        [RawEntry.record { label := some "unknown", descriptor := some [0] }] 1 =
      .ok [.notMatched "Face not recognized" 0] := by
  have h := c2_unknown_sentinel.1 [0]
      [RawEntry.record { label := some "unknown", descriptor := some [0] }]
      [("unknown", [0])] 1 rfl (by simp)
      (by rintro p hp; simp only [List.mem_singleton] at hp; subst hp; rfl)
      (by norm_num [bestOfPure, pureMatches, reduceBest])
  rw [h]
  norm_num [bestOfPure, pureMatches, reduceBest, sumSqDiff, sqrtGtQ]

/-- Claim C4 (counterexample): a store entry whose vector equals the query
exactly but whose label is the sentinel `"unknown"` is reported `NotMatched`
(at distance `0`, positive threshold `0.5`), not `Matched` as the claim
requires for every store containing an exactly-matching entry. -/
theorem c4_counterexample :
    findMatchesByDescriptor (.arr [0])
        [RawEntry.record { label := some "unknown", descriptor := some [0] }] (1/2) =
      .ok [.notMatched "Face not recognized" 0] ∧
    ∀ ds pt l,
      findMatchesByDescriptor (.arr [0])
          [RawEntry.record { label := some "unknown", descriptor := some [0] }] (1/2) ≠
        .ok [.matched ds pt l] := by
  have h1 : findMatchesByDescriptor (.arr [0])
      [RawEntry.record { label := some "unknown", descriptor := some [0] }] (1/2) =
      .ok [.notMatched "Face not recognized" 0] := by
    norm_num [findMatchesByDescriptor, parseQueryInput, matchAgainstStore, normalizeStore,
      normalizeEntry, shape1Cond, shape2Cond, truthyStr, truthyFace, findBestMatch,
      matchDescriptor, computeFaceMatches, euclideanDistanceSq, sumSqDiff, reduceBest,
      sqrtLtQ, sqrtGtQ, show (("unknown" : String) = "") = False from by decide]
  refine ⟨h1, ?_⟩
  intro ds pt l heq
  rw [h1] at heq
  simp at heq

/-- Claim C4 (amended): for every store containing an entry whose vector
equals the query exactly and every positive threshold, the winning distance
is `0` (so the carried distance is `0` and similarity is `1`), and the
matcher returns `Matched` with distance `0` — unless the winning label is
the sentinel `"unknown"`, in which case it returns `NotMatched` carrying
distance `0`. -/
theorem c4_exact_match (q : List ℚ) (store : List RawEntry)
    (lds : List (String × List ℚ)) (t : ℚ)
    (hn : normalizeStore store = .ok lds)
    (hex : ∃ p ∈ lds, (p.2 : List ℚ) = q)
    (hlen : ∀ p ∈ lds, (p.2 : List ℚ).length = q.length)
    (ht : 0 < t) :
    (bestOfPure q lds).distanceSq = 0 ∧
    findMatchesByDescriptor (.arr q) store t =
      .ok [if (bestOfPure q lds).label = "unknown" then
             .notMatched "Face not recognized" 0
           else
             .matched 0 (decodeParticipant (bestOfPure q lds).label)
               (bestOfPure q lds).label] := by
  obtain ⟨p, hp, hpq⟩ := hex
  have hne : lds ≠ [] := by
    intro h
    rw [h] at hp
    simp at hp
  have hmin := bestOfPure_min q lds p hp
  rw [hpq, sumSqDiff_self] at hmin
  have hnonneg : 0 ≤ (bestOfPure q lds).distanceSq := by
    rcases bestOfPure_exists q lds hne with ⟨r, _, he⟩
    rw [he]
    exact sumSqDiff_nonneg _ _
  have hzero : (bestOfPure q lds).distanceSq = 0 := le_antisymm hmin hnonneg
  refine ⟨hzero, ?_⟩
  have h := matchAgainstStore_spec q store lds t hn hne hlen
  have heq : findMatchesByDescriptor (.arr q) store t = matchAgainstStore q store t := rfl
  rw [heq, h, hzero]
  have hgt : sqrtGtQ 0 t = false := by
    have h1 : ¬t < 0 := not_lt.2 ht.le
    have h2 : ¬t * t < 0 := not_lt.2 (mul_self_nonneg t)
    simp [sqrtGtQ, h1, h2]
  have hlt : sqrtLtQ 0 (3/5) = true := by norm_num [sqrtLtQ]
  by_cases hul : (bestOfPure q lds).label = "unknown"
  · simp [hgt, hlt, hul]
  · simp [hgt, hlt, hul]

/-- Witness for C4 (amended): an exactly-matching entry with a real label is
returned as `Matched` at distance `0`. -/
theorem c4_witness :
    findMatchesByDescriptor (.arr [1])
        [RawEntry.record { label := some "B", descriptor := some [1] }] (1/2) =
      .ok [.matched 0 (decodeParticipant "B") "B"] := by
  have h := (c4_exact_match [1]
      [RawEntry.record { label := some "B", descriptor := some [1] }]
      [("B", [1])] (1/2) rfl ⟨("B", [1]), by simp, rfl⟩
      (by rintro p hp; simp only [List.mem_singleton] at hp; subst hp; rfl)
      (by norm_num)).2
  rw [h]
  norm_num [bestOfPure, pureMatches, reduceBest,
    show (("B" : String) = "unknown") = False from by decide]

/-- Claim C5 (counterexample): the matching pipeline re-throws: a query
string that fails JSON parsing makes `findMatchesByDescriptor` propagate the
exception to its caller instead of converting it into a uniform failure
result. -/
theorem c5_counterexample :
    findMatchesByDescriptor (.str "oops") [] (1/2) = .error () := rfl

/-- Claim C5 (amended): in the validation pipeline every image-decode or
detector exception is caught at the pipeline boundary and converted into
`{isValid: false, errors: [generic-error]}` with the single generic reason,
never re-thrown; the matching pipeline catches, logs and **re-throws** such
exceptions (query parse failures in `findMatchesByDescriptor`, decode or
detector throws in `findMatches`) to its caller. -/
theorem c5_error_boundary :
    (∀ det : Except Unit (Option Detection),
        validateAndExtractDescriptor true (.error ()) det =
          .ok ⟨false, ["Erro ao processar a imagem"], none, none, none⟩) ∧
    (∀ img : RawImage,
        validateAndExtractDescriptor true (.ok img) (.error ()) =
          .ok ⟨false, ["Erro ao processar a imagem"], none, none, none⟩) ∧
    (∀ (s : String) (store : List RawEntry) (t : ℚ), jsonParse s = none →
        findMatchesByDescriptor (.str s) store t = .error ()) ∧
    (∀ (store : List RawEntry) (t : ℚ), findMatches (.error ()) store t = .error ()) := by
  refine ⟨fun det => rfl, fun img => rfl, ?_, fun store t => rfl⟩
  intro s store t h
  have hpq : parseQueryInput (.str s) = .error () := by
    simp only [parseQueryInput, h]
  rw [findMatchesByDescriptor, hpq]

/-- Witness for C5 (amended) at concrete outcomes. -/
theorem c5_witness :
    validateAndExtractDescriptor true (.error ()) (.ok none) =
      .ok ⟨false, ["Erro ao processar a imagem"], none, none, none⟩ ∧
    validateAndExtractDescriptor true (.ok ⟨2, 2, [⟨100, 100, 100⟩]⟩) (.error ()) =
      .ok ⟨false, ["Erro ao processar a imagem"], none, none, none⟩ ∧
    findMatchesByDescriptor (.str "nonsense") [] (3/5) = .error () ∧
    findMatches (.error ()) [] (1/2) = .error () :=
  ⟨c5_error_boundary.1 (.ok none),
   c5_error_boundary.2.1 ⟨2, 2, [⟨100, 100, 100⟩]⟩,
   c5_error_boundary.2.2.1 "nonsense" [] (3/5) rfl,
   c5_error_boundary.2.2.2 [] (1/2)⟩

/-- Claim C6 (counterexample): an entry matching the `{nome, codigoHub,
face}` probe whose `face` string fails JSON parsing does not normalize to
`null` — normalization throws the parse error (aborting the call), so "any
other shape yields null" fails on this input. -/
theorem c6_counterexample :
    normalizeEntry (.record
        { nome := some "a", codigoHub := some "b", face := some (.strF "oops") }) =
      .error () ∧
    normalizeEntry (.record
        { nome := some "a", codigoHub := some "b", face := some (.strF "oops") }) ≠
      .ok none := by
  constructor
  · rfl
  · intro h
    cases h

/-- Claim C6 (amended): store-entry normalization resolves shapes in priority
order — (1) `{label, descriptor}` (label truthy, i.e. non-empty) used as-is;
(2) `{nome, codigoHub, face}` (all truthy) with `face` a numeric array or a
JSON string parsing to one, label synthesized as
`JSON.stringify({nome, codigoHub})`; (3) `{descriptor}` with the label
synthesized using the `"unknown"` fallback for missing/empty `nome` /
`codigoHub`; any other shape — including a bare numeric array — yields
`null`, which is filtered out before matching; **except** that a shape-(2)
entry whose `face` string fails JSON parsing throws the parse error instead
of yielding `null`. -/
theorem c6_codec_priority :
    (∀ (e : StoredRecord) (s : String) (d : List ℚ),
        e.label = some s → s ≠ "" → e.descriptor = some d →
        normalizeEntry (.record e) = .ok (some (s, d))) ∧
    (∀ (e : StoredRecord) (n c : String) (xs : List ℚ),
        shape1Cond e = false → e.nome = some n → n ≠ "" → e.codigoHub = some c → c ≠ "" →
        e.face = some (.arrF xs) →
        normalizeEntry (.record e) = .ok (some (jsonStringifyPair n c, xs))) ∧
    (∀ (e : StoredRecord) (n c s : String) (j : Json) (d : List ℚ),
        shape1Cond e = false → e.nome = some n → n ≠ "" → e.codigoHub = some c → c ≠ "" →
        e.face = some (.strF s) → s ≠ "" → jsonParse s = some j → float32FromJson j = .ok d →
        normalizeEntry (.record e) = .ok (some (jsonStringifyPair n c, d))) ∧
    (∀ (e : StoredRecord) (s : String),
        shape1Cond e = false → shape2Cond e = true → e.face = some (.strF s) →
        jsonParse s = none →
        normalizeEntry (.record e) = .error ()) ∧
    (∀ (e : StoredRecord) (d : List ℚ),
        shape1Cond e = false → shape2Cond e = false → e.descriptor = some d →
        normalizeEntry (.record e) =
          .ok (some (jsonStringifyPair (strOrUnknown e.nome) (strOrUnknown e.codigoHub), d))) ∧
    (∀ e : StoredRecord,
        shape1Cond e = false → shape2Cond e = false → e.descriptor = none →
        normalizeEntry (.record e) = .ok none) ∧
    (∀ xs : List ℚ, normalizeEntry (.bareArr xs) = .ok none) := by
  refine ⟨?_, ?_, ?_, ?_, ?_, ?_, fun xs => rfl⟩
  · intro e s d hl hs hd
    have h1 : shape1Cond e = true := by
      simp [shape1Cond, truthyStr, hl, hd, hs]
    simp [normalizeEntry, h1, hl, hd]
  · intro e n c xs h1 hn hns hc hcs hface
    have h2 : shape2Cond e = true := by
      simp [shape2Cond, truthyStr, truthyFace, hn, hc, hface, hns, hcs]
    simp [normalizeEntry, h1, h2, hface, hn, hc]
  · intro e n c s j d h1 hn hns hc hcs hface hs hjp hfl
    have h2 : shape2Cond e = true := by
      simp [shape2Cond, truthyStr, truthyFace, hn, hc, hface, hns, hcs, hs]
    simp [normalizeEntry, h1, h2, hface, hn, hc, hjp, hfl]
  · intro e s h1 h2 hface hjp
    simp [normalizeEntry, h1, h2, hface, hjp]
  · intro e d h1 h2 hd
    simp [normalizeEntry, h1, h2, hd]
  · intro e h1 h2 hd
    simp [normalizeEntry, h1, h2, hd]

/-- Witness for C6 (amended): one concrete entry through each accepting
shape and the `null` fallbacks. -/
theorem c6_witness :
    normalizeEntry (.record { label := some "x", descriptor := some [2] }) =
      .ok (some ("x", [2])) ∧
    normalizeEntry (.record
        { nome := some "a", codigoHub := some "b", face := some (.arrF [3]) }) =
      .ok (some (jsonStringifyPair "a" "b", [3])) ∧
    normalizeEntry (.record { descriptor := some [4] }) =
      .ok (some (jsonStringifyPair "unknown" "unknown", [4])) ∧
    normalizeEntry (.record {}) = .ok none ∧
    normalizeEntry (.bareArr [5]) = .ok none :=
  ⟨c6_codec_priority.1 _ "x" [2] rfl (by decide) rfl,
   c6_codec_priority.2.1 _ "a" "b" [3] rfl rfl (by decide) rfl (by decide) rfl,
   c6_codec_priority.2.2.2.2.1 _ [4] rfl rfl rfl,
   c6_codec_priority.2.2.2.2.2.1 _ rfl rfl rfl,
   c6_codec_priority.2.2.2.2.2.2 [5]⟩

/-- Claim C9: for every query descriptor and threshold, a store that is
empty or whose entries all normalize to `null` yields an empty result array
from both matcher entry points, never an error. -/
theorem c9_degenerate_store :
    (∀ (q : List ℚ) (t : ℚ), findMatchesByDescriptor (.arr q) [] t = .ok []) ∧
    (∀ (q : List ℚ) (store : List RawEntry) (t : ℚ),
        (∀ e ∈ store, normalizeEntry e = .ok none) →
        findMatchesByDescriptor (.arr q) store t = .ok []) ∧
    (∀ (store : List RawEntry) (t : ℚ), findMatches (.ok none) store t = .ok []) ∧
    (∀ (q : List ℚ) (store : List RawEntry) (t : ℚ),
        (∀ e ∈ store, normalizeEntry e = .ok none) →
        findMatches (.ok (some q)) store t = .ok []) := by
  have hcore : ∀ (q : List ℚ) (store : List RawEntry) (t : ℚ),
      (∀ e ∈ store, normalizeEntry e = .ok none) →
      matchAgainstStore q store t = .ok [] := by
    intro q store t h
    rw [matchAgainstStore, normalizeStore_all_none store h]
    simp
  refine ⟨fun q t => rfl, ?_, fun store t => rfl, ?_⟩
  · intro q store t h
    have heq : findMatchesByDescriptor (.arr q) store t = matchAgainstStore q store t := rfl
    rw [heq, hcore q store t h]
  · intro q store t h
    have heq : findMatches (.ok (some q)) store t = matchAgainstStore q store t := rfl
    rw [heq, hcore q store t h]

/-- Witness for C9 at concrete degenerate stores. -/
theorem c9_witness :
    findMatchesByDescriptor (.arr [1]) [] 1 = .ok [] ∧
    findMatchesByDescriptor (.arr [1]) [RawEntry.bareArr [2], RawEntry.record {}] 1 = .ok [] ∧
    findMatches (.ok none) [RawEntry.bareArr [2]] 1 = .ok [] ∧
    findMatches (.ok (some [1])) [RawEntry.bareArr [2]] 1 = .ok [] := by
  have hall : ∀ e ∈ [RawEntry.bareArr [2], RawEntry.record {}],
      normalizeEntry e = .ok none := by
    rintro e he
    rcases List.mem_cons.1 he with rfl | he2
    · rfl
    · rcases List.mem_cons.1 he2 with rfl | he3
      · rfl
      · simp at he3
  exact ⟨c9_degenerate_store.1 [1] 1,
    c9_degenerate_store.2.1 [1] _ 1 hall,
    c9_degenerate_store.2.2.1 _ 1,
    c9_degenerate_store.2.2.2 [1] [RawEntry.bareArr [2]] 1
      (by rintro e he; simp only [List.mem_singleton] at he; subst he; rfl)⟩

/-- Claim C10: enrollment-format entries round-trip losslessly into
matching: for every `nome`, `codigoHub` and descriptor `d`, the entry
produced by `createLabeledDescriptor` is accepted by the matcher's store
normalization under its first `{label, descriptor}` shape, yielding back the
label `JSON.stringify({nome, codigoHub})` and the vector `d`. -/
theorem c10_roundtrip (nome codigoHub : String) (d : List ℚ) :
    normalizeEntry (.record (createLabeledDescriptor nome codigoHub d)) =
      .ok (some (jsonStringifyPair nome codigoHub, d)) := by
  have hne := jsonStringifyPair_ne_empty nome codigoHub
  simp [normalizeEntry, createLabeledDescriptor, shape1Cond, truthyStr, hne]

/-- Claim C8: for every image on which the detector finds no face, the
quality gate returns `isValid: false`, exactly the single "no face detected"
reason, and `descriptor`, `detectionScore`, `faceBox` all undefined. -/
theorem c8_no_face (img : RawImage) :
    validateAndExtractDescriptor true (.ok img) (.ok none) =
      .ok ⟨false, ["Nenhum rosto detectado na foto"], none, none, none⟩ := rfl

/-- Claim C7: for every detected face the quality gate evaluates all four
checks (confidence `≥ 0.9`, area ratio in `[0.10, 0.60]`, horizontal
centering within `25%` of image width, mean luminance in `[60, 200]`)
without short-circuiting — the error list is the concatenation of the four
independent at-most-one-reason segments, `isValid` is exactly "errors
empty", and a detection with confidence `0.5` and brightness `20` yields
both corresponding violation reasons. -/
theorem c7_quality_checks (img : RawImage) (det : Detection) :
    validateAndExtractDescriptor true (.ok img) (.ok (some det)) =
      .ok ⟨(detectionErrors img (some det)).isEmpty, detectionErrors img (some det),
           some det.descriptor, some det.score, some det.box⟩ ∧
    detectionErrors img (some det) =
      (if det.score < 9/10 then ["Qualidade da detecção baixa - tire outra foto"] else []) ++
      (if det.box.width * det.box.height / (img.width * img.height) < 1/10 then
         ["Rosto muito distante - aproxime-se da câmera"]
       else if 3/5 < det.box.width * det.box.height / (img.width * img.height) then
         ["Rosto muito próximo - afaste-se da câmera"]
       else []) ++
      (if img.width * (1/4) < |det.box.x + det.box.width / 2 - img.width / 2| then
         ["Rosto não centralizado - posicione-se no centro"]
       else []) ++
      (if brightnessOf img < 60 then ["Foto muito escura - melhore a iluminação"]
       else if 200 < brightnessOf img then ["Foto muito clara - reduza a iluminação"]
       else []) ∧
    ("Qualidade da detecção baixa - tire outra foto" ∈ detectionErrors img (some det) ↔
      det.score < 9/10) ∧
    ("Foto muito escura - melhore a iluminação" ∈ detectionErrors img (some det) ↔
      brightnessOf img < 60) ∧
    (det.score = 1/2 → brightnessOf img = 20 →
      "Qualidade da detecção baixa - tire outra foto" ∈ detectionErrors img (some det) ∧
      "Foto muito escura - melhore a iluminação" ∈ detectionErrors img (some det)) := by
  have hiff1 : "Qualidade da detecção baixa - tire outra foto" ∈
      detectionErrors img (some det) ↔ det.score < 9/10 := by
    simp only [detectionErrors, List.mem_append]
    split_ifs with h1 h2 h3 h4 h5 h6 <;>
      simp_all [show ("Qualidade da detecção baixa - tire outra foto" =
          "Rosto muito distante - aproxime-se da câmera") = False from by decide,
        show ("Qualidade da detecção baixa - tire outra foto" =
          "Rosto muito próximo - afaste-se da câmera") = False from by decide,
        show ("Qualidade da detecção baixa - tire outra foto" =
          "Rosto não centralizado - posicione-se no centro") = False from by decide,
        show ("Qualidade da detecção baixa - tire outra foto" =
          "Foto muito escura - melhore a iluminação") = False from by decide,
        show ("Qualidade da detecção baixa - tire outra foto" =
          "Foto muito clara - reduza a iluminação") = False from by decide]
  have hiff5 : "Foto muito escura - melhore a iluminação" ∈
      detectionErrors img (some det) ↔ brightnessOf img < 60 := by
    simp only [detectionErrors, List.mem_append]
    split_ifs with h1 h2 h3 h4 h5 h6 <;>
      simp_all [show ("Foto muito escura - melhore a iluminação" =
          "Qualidade da detecção baixa - tire outra foto") = False from by decide,
        show ("Foto muito escura - melhore a iluminação" =
          "Rosto muito distante - aproxime-se da câmera") = False from by decide,
        show ("Foto muito escura - melhore a iluminação" =
          "Rosto muito próximo - afaste-se da câmera") = False from by decide,
        show ("Foto muito escura - melhore a iluminação" =
          "Rosto não centralizado - posicione-se no centro") = False from by decide]
  refine ⟨rfl, rfl, hiff1, hiff5, ?_⟩
  intro hs hb
  refine ⟨hiff1.2 ?_, hiff5.2 ?_⟩
  · rw [hs]
    norm_num
  · rw [hb]
    norm_num

/-- Witness for C7: a concrete detection with confidence `0.5` on a concrete
image of brightness `20` produces both violation reasons. -/
theorem c7_witness :
    "Qualidade da detecção baixa - tire outra foto" ∈
      detectionErrors ⟨3, 3, [⟨20, 20, 20⟩]⟩ (some ⟨1/2, ⟨0, 0, 2, 2⟩, [1]⟩) ∧
    "Foto muito escura - melhore a iluminação" ∈
      detectionErrors ⟨3, 3, [⟨20, 20, 20⟩]⟩ (some ⟨1/2, ⟨0, 0, 2, 2⟩, [1]⟩) :=
  (c7_quality_checks ⟨3, 3, [⟨20, 20, 20⟩]⟩ ⟨1/2, ⟨0, 0, 2, 2⟩, [1]⟩).2.2.2.2 rfl
    (by norm_num [brightnessOf, lumSum])

/-! ### Helper lemmas for the ranked matcher -/

theorem sumSq_nonneg (a : List ℚ) : 0 ≤ sumSq a := by
  induction a with
  | nil => simp [sumSq]
  | cons x xs ih =>
    have := mul_self_nonneg x
    simp only [sumSq]
    linarith

theorem cosValR_nonneg (n m : ℚ) (hn : 0 ≤ n) : 0 ≤ cosValR n m :=
  div_nonneg (by exact_mod_cast hn) (Real.sqrt_nonneg _)

theorem cosValR_neg (n m : ℚ) (hn : n < 0) (hm : 0 < m) : cosValR n m < 0 :=
  div_neg_of_neg_of_pos (by exact_mod_cast hn) (Real.sqrt_pos.2 (by exact_mod_cast hm))

theorem cosValR_neg_num (n m : ℚ) : cosValR (-n) m = -cosValR n m := by
  unfold cosValR
  push_cast
  exact neg_div _ _

theorem cosValR_one (t : ℚ) : cosValR t 1 = (t : ℝ) := by
  unfold cosValR
  norm_num

theorem cosVal_lt_iff (n1 n2 m1 m2 : ℚ) (hn1 : 0 ≤ n1) (hn2 : 0 ≤ n2)
    (hm1 : 0 < m1) (hm2 : 0 < m2) :
    cosValR n1 m1 < cosValR n2 m2 ↔ n1 * n1 * m2 < n2 * n2 * m1 := by
  unfold cosValR
  have hm1R : (0:ℝ) < (m1:ℝ) := by exact_mod_cast hm1
  have hm2R : (0:ℝ) < (m2:ℝ) := by exact_mod_cast hm2
  have hs1 := Real.sqrt_pos.2 hm1R
  have hs2 := Real.sqrt_pos.2 hm2R
  have e1 : Real.sqrt (m1:ℝ) * Real.sqrt (m1:ℝ) = (m1:ℝ) := Real.mul_self_sqrt hm1R.le
  have e2 : Real.sqrt (m2:ℝ) * Real.sqrt (m2:ℝ) = (m2:ℝ) := Real.mul_self_sqrt hm2R.le
  have hn1R : (0:ℝ) ≤ (n1:ℝ) := by exact_mod_cast hn1
  have hn2R : (0:ℝ) ≤ (n2:ℝ) := by exact_mod_cast hn2
  rw [div_lt_div_iff₀ hs1 hs2]
  constructor
  · intro h
    have ha : (0:ℝ) ≤ (n1:ℝ) * Real.sqrt (m2:ℝ) := mul_nonneg hn1R (Real.sqrt_nonneg _)
    have h2 := mul_self_lt_mul_self ha h
    have hq : (n1:ℝ) * n1 * (m2:ℝ) < (n2:ℝ) * n2 * (m1:ℝ) := by nlinarith
    exact_mod_cast hq
  · intro h
    have hR : (n1:ℝ) * n1 * (m2:ℝ) < (n2:ℝ) * n2 * (m1:ℝ) := by exact_mod_cast h
    by_contra hc
    push_neg at hc
    have hb : (0:ℝ) ≤ (n2:ℝ) * Real.sqrt (m1:ℝ) := mul_nonneg hn2R (Real.sqrt_nonneg _)
    have h2 := mul_self_le_mul_self hb hc
    nlinarith

theorem cosVal_eq_iff (n1 n2 m1 m2 : ℚ) (hn1 : 0 ≤ n1) (hn2 : 0 ≤ n2)
    (hm1 : 0 < m1) (hm2 : 0 < m2) :
    cosValR n1 m1 = cosValR n2 m2 ↔ n1 * n1 * m2 = n2 * n2 * m1 := by
  have h1 := cosVal_lt_iff n1 n2 m1 m2 hn1 hn2 hm1 hm2
  have h2 := cosVal_lt_iff n2 n1 m2 m1 hn2 hn1 hm2 hm1
  constructor
  · intro h
    by_contra hne
    rcases lt_or_gt_of_ne hne with hlt | hgt
    · exact absurd (h1.2 hlt) (by rw [h]; exact lt_irrefl _)
    · exact absurd (h2.2 hgt) (by rw [h]; exact lt_irrefl _)
  · intro h
    by_contra hne
    rcases lt_or_gt_of_ne hne with hlt | hgt
    · exact absurd (h1.1 hlt) (by rw [h]; exact lt_irrefl _)
    · exact absurd (h2.1 hgt) (by rw [h]; exact lt_irrefl _)

theorem cosCmp_gt_iff (n1 m1 n2 m2 : ℚ) (hm1 : 0 < m1) (hm2 : 0 < m2) :
    cosCmp n1 m1 n2 m2 = .gt ↔ cosValR n2 m2 < cosValR n1 m1 := by
  unfold cosCmp
  by_cases h1 : 0 ≤ n1 <;> by_cases h2 : 0 ≤ n2
  · simp only [h1, h2, if_true]
    have hiff := cosVal_lt_iff n2 n1 m2 m1 h2 h1 hm2 hm1
    unfold cosCmpQ
    by_cases ha : n1 * n1 * m2 < n2 * n2 * m1
    · have : ¬ cosValR n2 m2 < cosValR n1 m1 := by
        intro hc
        have := hiff.1 hc
        linarith
      simp [ha, this]
    · by_cases hb : n2 * n2 * m1 < n1 * n1 * m2
      · simp [ha, hb, hiff.2 hb]
      · have : ¬ cosValR n2 m2 < cosValR n1 m1 := fun hc => hb (hiff.1 hc)
        simp [ha, hb, this]
  · have hv : cosValR n2 m2 < cosValR n1 m1 :=
      lt_of_lt_of_le (cosValR_neg n2 m2 (not_le.1 h2) hm2) (cosValR_nonneg n1 m1 h1)
    simp [h1, h2, hv]
  · have hv : cosValR n1 m1 < cosValR n2 m2 :=
      lt_of_lt_of_le (cosValR_neg n1 m1 (not_le.1 h1) hm1) (cosValR_nonneg n2 m2 h2)
    simp [h1, h2, asymm hv]
  · simp only [h1, h2, if_false]
    have hn1 : (0:ℚ) ≤ -n1 := by linarith [not_le.1 h1]
    have hn2 : (0:ℚ) ≤ -n2 := by linarith [not_le.1 h2]
    have hiff := cosVal_lt_iff (-n1) (-n2) m1 m2 hn1 hn2 hm1 hm2
    rw [cosValR_neg_num, cosValR_neg_num] at hiff
    have hiff2 : cosValR n2 m2 < cosValR n1 m1 ↔ n1 * n1 * m2 < n2 * n2 * m1 := by
      rw [← neg_lt_neg_iff]
      rw [hiff]
      constructor <;> intro h <;> nlinarith
    unfold cosCmpQ
    by_cases ha : n2 * n2 * m1 < n1 * n1 * m2
    · have : ¬ cosValR n2 m2 < cosValR n1 m1 := by
        intro hc
        have := hiff2.1 hc
        linarith
      simp [ha, this]
    · by_cases hb : n1 * n1 * m2 < n2 * n2 * m1
      · simp [ha, hb, hiff2.2 hb]
      · have : ¬ cosValR n2 m2 < cosValR n1 m1 := fun hc => hb (hiff2.1 hc)
        simp [ha, hb, this]

theorem cosCmp_eq_iff (n1 m1 n2 m2 : ℚ) (hm1 : 0 < m1) (hm2 : 0 < m2) :
    cosCmp n1 m1 n2 m2 = .eq ↔ cosValR n1 m1 = cosValR n2 m2 := by
  unfold cosCmp
  by_cases h1 : 0 ≤ n1 <;> by_cases h2 : 0 ≤ n2
  · simp only [h1, h2, if_true]
    have hiff := cosVal_eq_iff n1 n2 m1 m2 h1 h2 hm1 hm2
    have hlt1 := cosVal_lt_iff n1 n2 m1 m2 h1 h2 hm1 hm2
    unfold cosCmpQ
    by_cases ha : n1 * n1 * m2 < n2 * n2 * m1
    · constructor
      · intro h
        simp [ha] at h
      · intro h
        exact absurd (hiff.1 h) (by intro he; rw [he] at ha; exact lt_irrefl _ ha)
    · by_cases hb : n2 * n2 * m1 < n1 * n1 * m2
      · constructor
        · intro h
          simp [ha, hb] at h
        · intro h
          exact absurd (hiff.1 h) (by intro he; rw [he] at hb; exact lt_irrefl _ hb)
      · have he : n1 * n1 * m2 = n2 * n2 * m1 := le_antisymm (not_lt.1 hb) (not_lt.1 ha)
        simp [ha, hb, hiff.2 he]
  · have hv : cosValR n2 m2 < cosValR n1 m1 :=
      lt_of_lt_of_le (cosValR_neg n2 m2 (not_le.1 h2) hm2) (cosValR_nonneg n1 m1 h1)
    simp [h1, h2, hv.ne.symm]
  · have hv : cosValR n1 m1 < cosValR n2 m2 :=
      lt_of_lt_of_le (cosValR_neg n1 m1 (not_le.1 h1) hm1) (cosValR_nonneg n2 m2 h2)
    simp [h1, h2, hv.ne]
  · simp only [h1, h2, if_false]
    have hn1 : (0:ℚ) ≤ -n1 := by linarith [not_le.1 h1]
    have hn2 : (0:ℚ) ≤ -n2 := by linarith [not_le.1 h2]
    have hiff := cosVal_eq_iff (-n1) (-n2) m1 m2 hn1 hn2 hm1 hm2
    rw [cosValR_neg_num, cosValR_neg_num, neg_inj] at hiff
    have hiff2 : cosValR n1 m1 = cosValR n2 m2 ↔ n2 * n2 * m1 = n1 * n1 * m2 := by
      rw [hiff]
      constructor <;> intro h <;> nlinarith
    have hlt := cosVal_lt_iff (-n2) (-n1) m2 m1 hn2 hn1 hm2 hm1
    unfold cosCmpQ
    by_cases ha : n2 * n2 * m1 < n1 * n1 * m2
    · constructor
      · intro h
        simp [ha] at h
      · intro h
        exact absurd (hiff2.1 h) (by intro he; rw [he] at ha; exact lt_irrefl _ ha)
    · by_cases hb : n1 * n1 * m2 < n2 * n2 * m1
      · constructor
        · intro h
          simp [ha, hb] at h
        · intro h
          exact absurd (hiff2.1 h) (by intro he; rw [← he] at hb; exact lt_irrefl _ hb)
      · have he : n2 * n2 * m1 = n1 * n1 * m2 := le_antisymm (not_lt.1 hb) (not_lt.1 ha)
        simp [ha, hb, hiff2.2 he]

theorem cosCmp_lt_iff (n1 m1 n2 m2 : ℚ) (hm1 : 0 < m1) (hm2 : 0 < m2) :
    cosCmp n1 m1 n2 m2 = .lt ↔ cosValR n1 m1 < cosValR n2 m2 := by
  rcases lt_trichotomy (cosValR n1 m1) (cosValR n2 m2) with hv | hv | hv
  · constructor
    · intro _
      exact hv
    · intro _
      cases hc : cosCmp n1 m1 n2 m2 with
      | lt => rfl
      | eq => exact absurd ((cosCmp_eq_iff n1 m1 n2 m2 hm1 hm2).1 hc) hv.ne
      | gt => exact absurd ((cosCmp_gt_iff n1 m1 n2 m2 hm1 hm2).1 hc) (asymm hv)
  · constructor
    · intro hc
      cases ((cosCmp_eq_iff n1 m1 n2 m2 hm1 hm2).2 hv ▸ hc : (Ordering.eq = Ordering.lt))
    · intro h
      exact absurd h hv.not_lt.elim
  · constructor
    · intro hc
      cases ((cosCmp_gt_iff n1 m1 n2 m2 hm1 hm2).2 hv ▸ hc : (Ordering.gt = Ordering.lt))
    · intro h
      exact absurd h (asymm hv)

theorem cosGeQ_iff (n m t : ℚ) (hm : 0 < m) :
    cosGeQ n m t = true ↔ (t : ℝ) ≤ cosValR n m := by
  unfold cosGeQ
  by_cases hn : 0 ≤ n
  · simp only [hn, if_true, Bool.or_eq_true, decide_eq_true_eq]
    by_cases ht : t ≤ 0
    · simp only [ht, true_or, true_iff]
      calc (t:ℝ) ≤ 0 := by exact_mod_cast ht
        _ ≤ cosValR n m := cosValR_nonneg n m hn
    · have htpos : 0 < t := not_le.1 ht
      have hiff := cosVal_lt_iff n t m 1 hn htpos.le hm one_pos
      rw [cosValR_one] at hiff
      constructor
      · rintro (h | h)
        · exact absurd h ht
        · by_contra hc
          push_neg at hc
          have := hiff.1 hc
          nlinarith
      · intro h
        right
        by_contra hc
        push_neg at hc
        have : cosValR n m < (t:ℝ) := hiff.2 (by nlinarith)
        linarith
  · simp only [hn, if_false, Bool.and_eq_true, decide_eq_true_eq]
    have hneg : n < 0 := not_le.1 hn
    by_cases ht : t ≤ 0
    · simp only [ht, true_and]
      have hn2 : (0:ℚ) ≤ -n := by linarith
      have ht2 : (0:ℚ) ≤ -t := by linarith
      have hiff := cosVal_lt_iff (-t) (-n) 1 m ht2 hn2 one_pos hm
      rw [cosValR_neg_num, cosValR_one, cosValR_neg_num] at hiff
      constructor
      · intro h
        by_contra hc
        push_neg at hc
        have hlt : -(t:ℝ) < -cosValR n m := by linarith
        have := hiff.1 hlt
        nlinarith
      · intro h
        by_contra hc
        push_neg at hc
        have : -(t:ℝ) < -cosValR n m := hiff.2 (by nlinarith)
        linarith
    · have htpos : 0 < t := not_le.1 ht
      simp only [ht, false_and, false_iff, not_le]
      calc cosValR n m < 0 := cosValR_neg n m hneg hm
        _ < (t:ℝ) := by exact_mod_cast htpos

theorem rankedLe_total (a b : RankedMatch) (ha : 0 < a.simDenSq) (hb : 0 < b.simDenSq) :
    rankedLe a b = true ∨ rankedLe b a = true := by
  unfold rankedLe
  rcases lt_trichotomy (simValue a) (simValue b) with hv | hv | hv
  · right
    rw [(cosCmp_gt_iff b.simNum b.simDenSq a.simNum a.simDenSq hb ha).2 hv]
  · rcases Nat.le_total a.idx b.idx with hi | hi
    · left
      rw [(cosCmp_eq_iff a.simNum a.simDenSq b.simNum b.simDenSq ha hb).2 hv]
      simp [hi]
    · right
      rw [(cosCmp_eq_iff b.simNum b.simDenSq a.simNum a.simDenSq hb ha).2 hv.symm]
      simp [hi]
  · left
    rw [(cosCmp_gt_iff a.simNum a.simDenSq b.simNum b.simDenSq ha hb).2 hv]

theorem rankedLe_trans (a b c : RankedMatch) (ha : 0 < a.simDenSq) (hb : 0 < b.simDenSq)
    (hc : 0 < c.simDenSq) (h1 : rankedLe a b = true) (h2 : rankedLe b c = true) :
    rankedLe a c = true := by
  unfold rankedLe at h1 h2 ⊢
  cases hab : cosCmp a.simNum a.simDenSq b.simNum b.simDenSq with
  | lt => rw [hab] at h1; cases h1
  | eq =>
    have hvab := (cosCmp_eq_iff a.simNum a.simDenSq b.simNum b.simDenSq ha hb).1 hab
    rw [hab] at h1
    simp only [decide_eq_true_eq] at h1
    cases hbc : cosCmp b.simNum b.simDenSq c.simNum c.simDenSq with
    | lt => rw [hbc] at h2; cases h2
    | eq =>
      have hvbc := (cosCmp_eq_iff b.simNum b.simDenSq c.simNum c.simDenSq hb hc).1 hbc
      rw [hbc] at h2
      simp only [decide_eq_true_eq] at h2
      rw [(cosCmp_eq_iff a.simNum a.simDenSq c.simNum c.simDenSq ha hc).2 (hvab.trans hvbc)]
      simp [le_trans h1 h2]
    | gt =>
      have hvbc := (cosCmp_gt_iff b.simNum b.simDenSq c.simNum c.simDenSq hb hc).1 hbc
      rw [(cosCmp_gt_iff a.simNum a.simDenSq c.simNum c.simDenSq ha hc).2 (hvab ▸ hvbc)]
  | gt =>
    have hvab := (cosCmp_gt_iff a.simNum a.simDenSq b.simNum b.simDenSq ha hb).1 hab
    cases hbc : cosCmp b.simNum b.simDenSq c.simNum c.simDenSq with
    | lt => rw [hbc] at h2; cases h2
    | eq =>
      have hvbc := (cosCmp_eq_iff b.simNum b.simDenSq c.simNum c.simDenSq hb hc).1 hbc
      rw [(cosCmp_gt_iff a.simNum a.simDenSq c.simNum c.simDenSq ha hc).2 (hvbc ▸ hvab)]
    | gt =>
      have hvbc := (cosCmp_gt_iff b.simNum b.simDenSq c.simNum c.simDenSq hb hc).1 hbc
      rw [(cosCmp_gt_iff a.simNum a.simDenSq c.simNum c.simDenSq ha hc).2 (hvbc.trans hvab)]

theorem insertLe_perm (le : RankedMatch → RankedMatch → Bool) (a : RankedMatch)
    (l : List RankedMatch) : List.Perm (insertLe le a l) (a :: l) := by
  induction l with
  | nil => simp [insertLe]
  | cons b l ih =>
    unfold insertLe
    by_cases h : le a b = true
    · simp [h]
    · simp only [h, Bool.false_eq_true, if_false]
      exact ((ih.cons b).trans (List.Perm.swap a b l))

theorem sortLe_perm (le : RankedMatch → RankedMatch → Bool) (l : List RankedMatch) :
    List.Perm (sortLe le l) l := by
  induction l with
  | nil => simp [sortLe]
  | cons a l ih => exact (insertLe_perm le a (sortLe le l)).trans (ih.cons a)

theorem insertLe_pairwise (le : RankedMatch → RankedMatch → Bool) (P : RankedMatch → Prop)
    (htot : ∀ x y, P x → P y → le x y = true ∨ le y x = true)
    (htrans : ∀ x y z, P x → P y → P z → le x y = true → le y z = true → le x z = true)
    (a : RankedMatch) (l : List RankedMatch) (hPa : P a) (hPl : ∀ x ∈ l, P x)
    (hl : l.Pairwise (fun x y => le x y = true)) :
    (insertLe le a l).Pairwise (fun x y => le x y = true) := by
  induction l with
  | nil => simp [insertLe]
  | cons b l ih =>
    have hPb : P b := hPl b (List.mem_cons_self _ _)
    have hPl2 : ∀ x ∈ l, P x := fun x hx => hPl x (List.mem_cons_of_mem _ hx)
    rcases List.pairwise_cons.1 hl with ⟨hbl, hlp⟩
    unfold insertLe
    by_cases h : le a b = true
    · simp only [h, if_true]
      refine List.pairwise_cons.2 ⟨?_, hl⟩
      intro y hy
      rcases List.mem_cons.1 hy with rfl | hy2
      · exact h
      · exact htrans a b y hPa hPb (hPl2 y hy2) h (hbl y hy2)
    · simp only [h, Bool.false_eq_true, if_false]
      refine List.pairwise_cons.2 ⟨?_, ih hPl2 hlp⟩
      intro y hy
      have hy2 : y = a ∨ y ∈ l := by
        have := (insertLe_perm le a l).mem_iff.1 hy
        simpa using this
      rcases hy2 with rfl | hy3
      · rcases htot y b hPa hPb with h1 | h1
        · exact absurd h1 h
        · exact h1
      · exact hbl y hy3

theorem sortLe_pairwise (le : RankedMatch → RankedMatch → Bool) (P : RankedMatch → Prop)
    (htot : ∀ x y, P x → P y → le x y = true ∨ le y x = true)
    (htrans : ∀ x y z, P x → P y → P z → le x y = true → le y z = true → le x z = true)
    (l : List RankedMatch) (hPl : ∀ x ∈ l, P x) :
    (sortLe le l).Pairwise (fun x y => le x y = true) := by
  induction l with
  | nil => simp [sortLe]
  | cons a l ih =>
    have hPa : P a := hPl a (List.mem_cons_self _ _)
    have hPl2 : ∀ x ∈ l, P x := fun x hx => hPl x (List.mem_cons_of_mem _ hx)
    have hPs : ∀ x ∈ sortLe le l, P x := fun x hx =>
      hPl2 x ((sortLe_perm le l).mem_iff.1 hx)
    exact insertLe_pairwise le P htot htrans a (sortLe le l) hPa hPs (ih hPl2)

theorem rankedCandidate_denSq_pos (q : List ℚ) (i : Nat) (v : List ℚ) (md : Option String) :
    0 < (rankedCandidate q i v md).simDenSq := by
  show 0 < (cosSimRep q v).2
  unfold cosSimRep
  split_ifs with hc
  · norm_num
  · push_neg at hc
    have h1 : 0 < sumSq q := lt_of_le_of_ne (sumSq_nonneg q) (Ne.symm hc.1)
    have h2 : 0 < sumSq v := lt_of_le_of_ne (sumSq_nonneg v) (Ne.symm hc.2)
    exact mul_pos h1 h2

theorem rankedCandidatesFrom_denSq_pos (q : List ℚ) (i : Nat) (l : List RawEntry) :
    ∀ r ∈ rankedCandidatesFrom q i l, 0 < r.simDenSq := by
  induction l generalizing i with
  | nil => simp [rankedCandidatesFrom]
  | cons e rest ih =>
    intro r hr
    rw [rankedCandidatesFrom] at hr
    cases hn : rankedNormalize e with
    | none =>
      rw [hn] at hr
      exact ih (i + 1) r hr
    | some vm =>
      rw [hn] at hr
      rcases List.mem_cons.1 hr with rfl | hr2
      · exact rankedCandidate_denSq_pos q i vm.1 vm.2
      · exact ih (i + 1) r hr2

theorem rankedCandidatesFrom_idx_ge (q : List ℚ) (i : Nat) (l : List RawEntry) :
    ∀ r ∈ rankedCandidatesFrom q i l, i ≤ r.idx := by
  induction l generalizing i with
  | nil => simp [rankedCandidatesFrom]
  | cons e rest ih =>
    intro r hr
    rw [rankedCandidatesFrom] at hr
    cases hn : rankedNormalize e with
    | none =>
      rw [hn] at hr
      exact le_trans (Nat.le_succ i) (ih (i + 1) r hr)
    | some vm =>
      rw [hn] at hr
      rcases List.mem_cons.1 hr with rfl | hr2
      · exact le_refl _
      · exact le_trans (Nat.le_succ i) (ih (i + 1) r hr2)

theorem rankedCandidatesFrom_pairwise_idx (q : List ℚ) (i : Nat) (l : List RawEntry) :
    (rankedCandidatesFrom q i l).Pairwise (fun a b => a.idx < b.idx) := by
  induction l generalizing i with
  | nil => simp [rankedCandidatesFrom]
  | cons e rest ih =>
    rw [rankedCandidatesFrom]
    cases hn : rankedNormalize e with
    | none => exact ih (i + 1)
    | some vm =>
      refine List.pairwise_cons.2 ⟨?_, ih (i + 1)⟩
      intro b hb
      have := rankedCandidatesFrom_idx_ge q (i + 1) rest b hb
      show (rankedCandidate q i vm.1 vm.2).idx < b.idx
      have hidx : (rankedCandidate q i vm.1 vm.2).idx = i := rfl
      omega

/-- Claim C3 (spec-modelled): the ranked matcher variant normalizes every
store entry, computes both Euclidean distance and cosine similarity per
surviving entry, keeps exactly the entries whose similarity is `≥ threshold`
(the kept/dropped test agrees with the real similarity value), returns them
sorted descending by similarity with ties broken by original store order
(stable sort), and returns an empty sequence rather than an error when no
entry qualifies. -/
theorem c3_ranked_matcher (q : List ℚ) (store : List RawEntry) (t : ℚ) :
    List.Perm (rankedFindMatches q store t)
      ((rankedCandidates q store).filter (fun r => cosGeQ r.simNum r.simDenSq t)) ∧
    (∀ r ∈ rankedCandidates q store,
      (cosGeQ r.simNum r.simDenSq t = true ↔ (t : ℝ) ≤ simValue r)) ∧
    (rankedFindMatches q store t).Pairwise (fun a b => simValue b ≤ simValue a) ∧
    (rankedFindMatches q store t).Pairwise
      (fun a b => simValue a = simValue b → a.idx < b.idx) ∧
    ((∀ r ∈ rankedCandidates q store, cosGeQ r.simNum r.simDenSq t = false) →
      rankedFindMatches q store t = []) := by
  have hpos : ∀ r ∈ rankedCandidates q store, 0 < r.simDenSq :=
    rankedCandidatesFrom_denSq_pos q 0 store
  have hposk : ∀ r ∈ (rankedCandidates q store).filter
      (fun r => cosGeQ r.simNum r.simDenSq t), 0 < r.simDenSq :=
    fun r hr => hpos r (List.mem_of_mem_filter hr)
  have hperm : List.Perm (rankedFindMatches q store t)
      ((rankedCandidates q store).filter (fun r => cosGeQ r.simNum r.simDenSq t)) :=
    sortLe_perm rankedLe _
  have hposs : ∀ r ∈ rankedFindMatches q store t, 0 < r.simDenSq :=
    fun r hr => hposk r (hperm.mem_iff.1 hr)
  have hpair : (rankedFindMatches q store t).Pairwise (fun a b => rankedLe a b = true) :=
    sortLe_pairwise rankedLe (fun r => 0 < r.simDenSq) rankedLe_total rankedLe_trans _ hposk
  refine ⟨hperm, ?_, ?_, ?_, ?_⟩
  · intro r hr
    exact cosGeQ_iff r.simNum r.simDenSq t (hpos r hr)
  · refine hpair.imp_of_mem ?_
    intro a b ha hb hle
    have hpa := hposs a ha
    have hpb := hposs b hb
    unfold rankedLe at hle
    cases hab : cosCmp a.simNum a.simDenSq b.simNum b.simDenSq with
    | lt => rw [hab] at hle; cases hle
    | eq =>
      exact le_of_eq
        ((cosCmp_eq_iff a.simNum a.simDenSq b.simNum b.simDenSq hpa hpb).1 hab).symm
    | gt =>
      exact le_of_lt ((cosCmp_gt_iff a.simNum a.simDenSq b.simNum b.simDenSq hpa hpb).1 hab)
  · have hidxc : (rankedCandidates q store).Pairwise (fun a b => a.idx < b.idx) :=
      rankedCandidatesFrom_pairwise_idx q 0 store
    have hidxk : ((rankedCandidates q store).filter
        (fun r => cosGeQ r.simNum r.simDenSq t)).Pairwise (fun a b => a.idx < b.idx) :=
      hidxc.filter _
    have hidxne : (rankedFindMatches q store t).Pairwise (fun a b => a.idx ≠ b.idx) := by
      have hsymm : ∀ {x y : RankedMatch}, x.idx ≠ y.idx → y.idx ≠ x.idx := fun h => h.symm
      exact (List.Perm.pairwise_iff hsymm hperm).2 (hidxk.imp fun h => Nat.ne_of_lt h)
    refine (hpair.and hidxne).imp_of_mem ?_
    intro a b ha hb hle hveq
    have hpa := hposs a ha
    have hpb := hposs b hb
    rcases hle with ⟨hle, hne⟩
    unfold rankedLe at hle
    cases hab : cosCmp a.simNum a.simDenSq b.simNum b.simDenSq with
    | lt => rw [hab] at hle; cases hle
    | eq =>
      rw [hab] at hle
      simp only [decide_eq_true_eq] at hle
      exact lt_of_le_of_ne hle hne
    | gt =>
      have hv : simValue b < simValue a :=
        (cosCmp_gt_iff a.simNum a.simDenSq b.simNum b.simDenSq hpa hpb).1 hab
      rw [hveq] at hv
      exact absurd hv (lt_irrefl _)
  · intro h
    have hkept : (rankedCandidates q store).filter
        (fun r => cosGeQ r.simNum r.simDenSq t) = [] := by
      rw [List.filter_eq_nil_iff]
      intro a ha
      rw [h a ha]
      simp
    show sortLe rankedLe _ = []
    rw [hkept]
    rfl

/-- Witness for C3 at concrete stores: a store whose only candidate has
negative similarity yields the empty sequence at threshold `0`, and a
two-entry store's output is sorted descending by similarity. -/
theorem c3_witness :
    rankedFindMatches [1] [RawEntry.bareArr [-1]] 0 = [] ∧
    (rankedFindMatches [1] [RawEntry.bareArr [1], RawEntry.bareArr [-1]] 0).Pairwise
      (fun a b => simValue b ≤ simValue a) := by
  constructor
  · refine (c3_ranked_matcher [1] [RawEntry.bareArr [-1]] 0).2.2.2.2 ?_
    intro r hr
    have : r = rankedCandidate [1] 0 [-1] none := by
      simpa [rankedCandidates, rankedCandidatesFrom, rankedNormalize] using hr
    subst this
    norm_num [rankedCandidate, cosGeQ, cosSimRep, sumSq, dotQ]
  · exact (c3_ranked_matcher [1] [RawEntry.bareArr [1], RawEntry.bareArr [-1]] 0).2.2.1
